import Mathlib

/-!
Shallow embedding of the report-lifecycle orchestration engine of the
qualys-automation repository, together with proofs settling the frozen
claims about its natural-language specification.

The embedding follows the Python source:
  * `src/src/api/qualys_client.py`   (QualysClient)
  * `src/src/services/report_service.py` (ReportService)
  * `src/main.py`, `src/qualys.py`   (legacy driver / legacy client)

External effects (remote create/status/download calls, the running-job
count, user input at the quota prompt) are supplied as explicit oracle
functions; everything else is translated statement by statement.
-/

namespace QualysAuto

/-! ### XML element model (xml.etree.ElementTree fragment used by the code) -/

/-- An XML element: tag, optional text, list of child elements.
Mirrors the part of `xml.etree.ElementTree.Element` the code touches. -/
inductive XElem where
  | mk (tag : String) (text : Option String) (children : List XElem)

def XElem.tag : XElem → String
  | .mk t _ _ => t

def XElem.text : XElem → Option String
  | .mk _ x _ => x

def XElem.children : XElem → List XElem
  | .mk _ _ cs => cs

/-- `element.find(tag)` — first DIRECT child with the given tag. -/
def XElem.findChild (e : XElem) (tag : String) : Option XElem :=
  e.children.find? (fun c => c.tag = tag)

/-- `element.findall(tag)` — all direct children with the given tag. -/
def XElem.findAll (e : XElem) (tag : String) : List XElem :=
  e.children.filter (fun c => c.tag = tag)

/-- `root.find('.//TAG')` — first descendant (document order, excluding the
root itself) with the given tag; searches a forest depth-first. -/
def findDesc (tag : String) : List XElem → Option XElem
  | [] => none
  | XElem.mk t x cs :: es =>
    if t = tag then some (XElem.mk t x cs)
    else
      match findDesc tag cs with
      | some r => some r
      | none => findDesc tag es

/-! ### Report-id extraction (`QualysClient._extract_report_id`,
`qualys_client.py` lines 222-248, and the inline legacy variant in
`qualys.py` `create_report_scanbased` lines 66-89). -/

/-- Candidate items considered by both extractors: the `ITEM` children of
`ITEM_LIST`, or — when there are none — `ITEM_LIST` itself provided it
directly carries a `KEY` child (`items = [item_list] if item_list.find('KEY')
is not None else []`). -/
def candidateItems (il : XElem) : List XElem :=
  let items := il.findAll "ITEM"
  if items.isEmpty then
    if (il.findChild "KEY").isSome then [il] else []
  else items

/-- The `KEY`/`VALUE` lookup shared by both extractors: `some v.text` when the
item has both a `KEY` and a `VALUE` direct child, `none` otherwise. -/
def itemValueText (item : XElem) : Option (Option String) :=
  match item.findChild "KEY", item.findChild "VALUE" with
  | some _, some v => some v.text
  | _, _ => none

/-- The contribution of one item to `report_ids` in
`QualysClient._extract_report_id`: its VALUE text when the item has both a
`KEY` and a `VALUE` child and the text is truthy in Python (`if value:`
skips `None` and the empty string). -/
def clientValuePick (item : XElem) : Option String :=
  match itemValueText item with
  | some (some s) => if s = "" then none else some s
  | some none => none
  | none => none

/-- `QualysClient._extract_report_id`: collects, over the candidate items,
the truthy VALUE texts and returns the last collected one, or `none`. -/
def extract_report_id (root : XElem) : Option String :=
  match findDesc "ITEM_LIST" root.children with
  | none => none
  | some il =>
    let items := candidateItems il
    if items.isEmpty then none
    else (items.filterMap clientValuePick).getLast?

/-- The legacy extractor inlined in `QualysAPI.create_report_scanbased`
(`qualys.py`): appends `value_elem.text` unconditionally (no truthiness
check) whenever both `KEY` and `VALUE` are present, and returns the last
appended value — which may itself be `None`. -/
def extract_report_id_legacy (root : XElem) : Option String :=
  match findDesc "ITEM_LIST" root.children with
  | none => none
  | some il =>
    let items := candidateItems il
    if items.isEmpty then none
    else
      let report_ids := items.filterMap itemValueText
      match report_ids.getLast? with
      | some t => t
      | none => none

/-! ### Rate-limit gate (`QualysClient._check_rate_limit`,
`qualys_client.py` lines 97-106).

`rate_limit_remaining` starts as `None` and is set only by
`_update_rate_limit_info` when a response carries an
`X-RateLimit-Remaining` header.  The code reads the answer at the critical
prompt with `input(...).lower().strip()` and accepts `oui`/`yes`/`y`/`o`;
`userInput` below stands for the already lowercased and stripped answer. -/

/-- Observable outcome of one `_check_rate_limit` call. -/
structure RateCheck where
  warned : Bool
  prompted : Bool
  raised : Bool
deriving DecidableEq, Repr

/-- Embedding of `QualysClient._check_rate_limit`. -/
def check_rate_limit (remaining : Option Int) (userInput : String) : RateCheck :=
  match remaining with
  | none => ⟨false, false, false⟩
  | some r =>
    if r < 10 then
      if r < 5 then
        let accepted := ["oui", "yes", "y", "o"].contains userInput
        ⟨true, true, !accepted⟩
      else ⟨true, false, false⟩
    else ⟨false, false, false⟩

/-! ### Slot waiting (`QualysClient.wait_for_report_slots`,
`qualys_client.py` lines 410-453).

The remote running-job count is an oracle `query : Nat → Except Unit Nat`
indexed by the iteration number; `.error ()` stands for the call raising.
The loop guard is `waited < max_wait` with `waited` increased by
`check_interval` once per iteration (on both the normal and the exception
path), so for `0 < check_interval` iteration `i` runs iff
`i * check_interval < max_wait`, i.e. iff `i < ⌈max_wait/check_interval⌉`.
The first-iteration listing of running reports (lines 433-441) is advisory
output only: it affects neither the returned value nor the iteration count
(if it raises, the handler performs the same sleep-and-increment), so it is
not modelled.  With `check_interval = 0` the Python loop never makes
progress; the theorems therefore assume a positive interval. -/

/-- Number of loop iterations `wait_for_report_slots` can perform:
the count of `i` with `i * check_interval < max_wait`. -/
def loopBudget (max_wait check_interval : Nat) : Nat :=
  (max_wait + check_interval - 1) / check_interval

/-- One observation is sufficient when the query succeeds and
`max_running_reports - running_count >= required_slots` (Python ints; the
subtraction may be negative, hence `Int`). -/
def slotObsGood (maxRunning : Nat) (required : Nat) (obs : Except Unit Nat) : Bool :=
  match obs with
  | .ok rc => decide ((required : Int) ≤ (maxRunning : Int) - (rc : Int))
  | .error _ => false

/-- Loop body of `wait_for_report_slots`, by recursion on the remaining
iteration budget; `i` is the current iteration index (so `waited` equals
`i * check_interval`).  Returns the boolean result together with the total
seconds slept before returning: a sufficient observation returns `true`
immediately without sleeping, every other iteration (insufficient slots or
a raising query) sleeps `check_interval` before the next one. -/
def waitSlotsAux (query : Nat → Except Unit Nat) (maxRunning required check_interval : Nat) :
    Nat → Nat → Bool × Nat
  | 0, i => (false, i * check_interval)
  | fuel + 1, i =>
    if slotObsGood maxRunning required (query i) then (true, i * check_interval)
    else waitSlotsAux query maxRunning required check_interval fuel (i + 1)

/-- Embedding of `QualysClient.wait_for_report_slots`: first component is
the returned boolean, second the accumulated sleeping in seconds. -/
def wait_for_report_slots (query : Nat → Except Unit Nat)
    (maxRunning required max_wait check_interval : Nat) : Bool × Nat :=
  waitSlotsAux query maxRunning required check_interval
    (loopBudget max_wait check_interval) 0

/-- Modelled from the spec (section 4.1 SlotTracker), for comparison with the
code: "`availableSlots() -> int` queries the remote service for the count of
jobs in the running state and subtracts from the configured maximum (fails
open to the configured maximum if the query itself fails)". -/
def availableSlots_specModel (maxRunning : Nat) (obs : Except Unit Nat) : Int :=
  match obs with
  | .ok rc => (maxRunning : Int) - (rc : Int)
  | .error _ => (maxRunning : Int)

/-! ### Batch planning (`ReportService.create_reports_with_smart_batching`,
`report_service.py` lines 310-315, and `process_network_scans_pdf`,
`main.py` lines 338-344). -/

/-- `total_batches = (len(reports_to_create) + batch_size - 1) // batch_size`. -/
def total_batches (n b : Nat) : Nat := (n + b - 1) / b

/-- Slice taken at batch index `i`:
`reports_to_create[i*b : min(i*b + b, len)]`. -/
def planSlice (R : List α) (b i : Nat) : List α := (R.drop (i * b)).take b

/-- Batch plan of `create_reports_with_smart_batching`: the slices
`reports_to_create[start_idx:end_idx]` for `batch_num in range(total_batches)`
with `start_idx = batch_num * batch_size` and
`end_idx = min(start_idx + batch_size, len(reports_to_create))`. -/
def plan (R : List α) (b : Nat) : List (List α) :=
  (List.range (total_batches R.length b)).map (planSlice R b)

/-- Batch plan of `process_network_scans_pdf` (`main.py`):
`data[i:i + batch_size]` for `i in range(0, len(data), batch_size)`. -/
def plan_main (R : List α) (b : Nat) : List (List α) :=
  (List.range' 0 (total_batches R.length b) b).map (fun s => (R.drop s).take b)

/-! ### Polling monitor (`ReportService.monitor_reports_until_completion`,
`report_service.py` lines 541-612).

Each status check is an oracle `poll : Nat → String → PollResult` giving,
for sweep index `k` and report id `rid`, either the status string the remote
returned (`check_report_status` may return `None`, modelled as
`.status none`) or `.exn` for a raised exception.  The database update for
an `Error`/`Cancelled` report (lines 583-590) is recorded in
`dbErrorWrites`. -/

/-- Result of one `check_report_status` call as seen by the monitor loop. -/
inductive PollResult where
  | status (s : Option String)
  | exn
deriving DecidableEq, Repr

/-- Mutable state of the monitor loop: the `completed_reports` and
`failed_reports` accumulators plus the log of report ids persisted with
status `error`. -/
structure MonitorState where
  completed : List String
  failed : List String
  dbErrorWrites : List String
deriving DecidableEq, Repr

/-- The initial monitor state. -/
def MonitorState.init : MonitorState := ⟨[], [], []⟩

/-- Body of the inner `for report_id in remaining_reports` loop: `Finished`
appends to `completed_reports`; `Error`/`Cancelled` appends to
`failed_reports` and persists status `error`; any other status, a missing
status or a raised exception leaves the state unchanged. -/
def pollOne (poll : Nat → String → PollResult) (k : Nat) (st : MonitorState)
    (rid : String) : MonitorState :=
  match poll k rid with
  | .status (some s) =>
    if s = "Finished" then { st with completed := st.completed ++ [rid] }
    else if s = "Error" ∨ s = "Cancelled" then
      { st with failed := st.failed ++ [rid], dbErrorWrites := st.dbErrorWrites ++ [rid] }
    else st
  | .status none => st
  | .exn => st

/-- One full sweep over the still-active report ids. -/
def sweep (poll : Nat → String → PollResult) (k : Nat) (remaining : List String)
    (st : MonitorState) : MonitorState :=
  remaining.foldl (pollOne poll k) st

/-- The `remaining_reports` recomputed at the top of each sweep:
ids neither completed nor failed. -/
def activeIds (ids : List String) (st : MonitorState) : List String :=
  ids.filter (fun rid => !(st.completed.contains rid) && !(st.failed.contains rid))

/-- Monitor loop by recursion on the remaining sweep budget; `k` is the
current sweep index.  `waited` equals `k * check_interval`, so with a
positive interval the guard `waited < max_wait` holds iff the budget is not
exhausted. -/
def monitorAux (poll : Nat → String → PollResult) (ids : List String) :
    Nat → Nat → MonitorState → MonitorState
  | 0, _, st => st
  | fuel + 1, k, st =>
    if st.completed.length + st.failed.length < ids.length then
      let remaining := activeIds ids st
      if remaining.isEmpty then st
      else monitorAux poll ids fuel (k + 1) (sweep poll k remaining st)
    else st

/-- Embedding of `ReportService.monitor_reports_until_completion` (returning
the whole final state; the Python function returns `completed_reports` and
leaves `failed_reports` and the database writes as side effects).  The sweep
budget `⌈max_wait/check_interval⌉` is exact for `0 < check_interval`. -/
def monitor_reports (poll : Nat → String → PollResult) (ids : List String)
    (max_wait check_interval : Nat) : MonitorState :=
  if ids.isEmpty then MonitorState.init
  else monitorAux poll ids (loopBudget max_wait check_interval) 0 MonitorState.init

/-! ### Batch orchestrator (`ReportService.create_and_wait_reports_batch`,
`report_service.py` lines 407-539) and outer driver
(`ReportService.create_reports_with_smart_batching_v2`, lines 614-675). -/

/-- The report-configuration dict fields the orchestrator passes to the
create calls (`type`, `scan_id`, `template_id`, `output_format`, `title`). -/
structure ReportConfig where
  kind : String
  scan_id : Option String
  template_id : String
  output_format : String
  title : String
deriving DecidableEq, Repr

/-- Outcome of one `create_report_scanbased`/`create_report_hostbased`
call: a report id, a `None` return ("Échec de création"), or a raised
exception (caught at lines 476-477). -/
inductive CreateOutcome where
  | created (id : String)
  | noId
  | raised
deriving DecidableEq, Repr

/-- Outcome of one `download_report` call: a file path, a `None` return, or
a raised exception. -/
inductive DownloadOutcome where
  | file (name : String)
  | noFile
  | raised
deriving DecidableEq, Repr

/-- Oracles describing the remote service's behaviour during one batch
call: the (successful) `get_running_reports_count` answer, the per-config
creation outcome, the status polls and the download outcomes. -/
structure BatchEnv where
  maxRunningReports : Nat
  runningCount : Nat
  create : ReportConfig → CreateOutcome
  poll : Nat → String → PollResult
  download : String → DownloadOutcome

/-- Final status recorded for a processed report
(lines 519-537: `downloaded`, `download_failed`, `download_error`,
`timeout`). -/
inductive FinalStatus where
  | downloaded
  | download_failed
  | download_error
  | timeout
deriving DecidableEq, Repr

/-- One entry of `created_reports_info` after phase 3 updated it. -/
structure ProcessedReport where
  config : ReportConfig
  report_id : String
  status : FinalStatus
  filename : Option String
deriving DecidableEq, Repr

/-- Phase 1 (`created_reports_info`): the configs of the admitted batch that
the remote accepted, paired with the returned report ids, in order;
creations that return `None` or raise contribute nothing. -/
def createdInfo (env : BatchEnv) (batch : List ReportConfig) : List (ReportConfig × String) :=
  batch.filterMap (fun c =>
    match env.create c with
    | .created id => some (c, id)
    | .noId => none
    | .raised => none)

/-- Result of one batch call, instrumented with the monitor's final state
and the ids actually passed to `download_report`; the Python function
returns just `results`. -/
structure BatchResult where
  results : List ProcessedReport
  monitor : MonitorState
  downloadCalls : List String
deriving Repr

/-- Phase 3 (lines 497-537) for a single created report: a download attempt
when the monitor completed it (`downloaded` on a returned file path,
`download_failed` on a `None` return, `download_error` on a raise),
`timeout` otherwise. -/
def phase3Entry (env : BatchEnv) (M : MonitorState) (p : ReportConfig × String) :
    ProcessedReport :=
  if M.completed.contains p.2 then
    match env.download p.2 with
    | .file fn => ⟨p.1, p.2, .downloaded, some fn⟩
    | .noFile => ⟨p.1, p.2, .download_failed, none⟩
    | .raised => ⟨p.1, p.2, .download_error, none⟩
  else ⟨p.1, p.2, .timeout, none⟩

/-- The `actual_batch_size` computation (lines 422-423), on ℤ as in Python:
`min(len(reports_configs), max_batch_size, max_running_reports -
get_running_reports_count())`. -/
def actualBatchSize (env : BatchEnv) (configs : List ReportConfig)
    (max_batch_size : Nat) : Int :=
  min (min (configs.length : Int) (max_batch_size : Int))
    ((env.maxRunningReports : Int) - (env.runningCount : Int))

/-- Embedding of `ReportService.create_and_wait_reports_batch`.  Phases:
slot-limited admission of a prefix, creation, monitoring (fixed
`max_wait=3600`, `check_interval=30`), then per created report either a
download attempt (id in the monitor's completed list) or the `timeout`
tag.  Returns `⟨[], …⟩` when no slot is available or no report was
created. -/
def create_and_wait_reports_batch (env : BatchEnv) (configs : List ReportConfig)
    (max_batch_size : Nat) : BatchResult :=
  if configs.isEmpty then ⟨[], MonitorState.init, []⟩
  else
    let actual := actualBatchSize env configs max_batch_size
    if actual ≤ 0 then ⟨[], MonitorState.init, []⟩
    else
      let batch := configs.take actual.toNat
      let info := createdInfo env batch
      let created_ids := info.map (fun p => p.2)
      if created_ids.isEmpty then ⟨[], MonitorState.init, []⟩
      else
        let mon := monitor_reports env.poll created_ids 3600 30
        let results := info.map (phase3Entry env mon)
        let calls := info.filterMap (fun p =>
          if mon.completed.contains p.2 then some p.2 else none)
        ⟨results, mon, calls⟩

/-- Outer driver loop of `create_reports_with_smart_batching_v2`, by
recursion on an iteration budget (the Python loop is `while
remaining_reports:` with no budget; a run that exhausts any finite budget
without emptying `remaining_reports` has not terminated).  After each batch
call the first `len(batch_results)` entries of `remaining_reports` are
dropped.  Returns the accumulated results and the remaining list. -/
def smartBatchingV2Aux (env : BatchEnv) (max_batch_size : Nat) :
    Nat → List ReportConfig → List ProcessedReport →
    List ProcessedReport × List ReportConfig
  | 0, remaining, acc => (acc, remaining)
  | fuel + 1, remaining, acc =>
    if remaining.isEmpty then (acc, remaining)
    else
      let br := (create_and_wait_reports_batch env remaining max_batch_size).results
      smartBatchingV2Aux env max_batch_size fuel (remaining.drop br.length) (acc ++ br)

/-- Embedding of `ReportService.create_reports_with_smart_batching_v2`
(with explicit iteration budget, see `smartBatchingV2Aux`). -/
def create_reports_with_smart_batching_v2 (env : BatchEnv)
    (reports_to_create : List ReportConfig) (max_batch_size fuel : Nat) :
    List ProcessedReport × List ReportConfig :=
  if reports_to_create.isEmpty then ([], [])
  else smartBatchingV2Aux env max_batch_size fuel reports_to_create []

/-! ### Auxiliary predicates and amended-claim reference definitions -/

/-- Whether a create call produced a report id. -/
def isCreated : CreateOutcome → Bool
  | .created _ => true
  | .noId => false
  | .raised => false

/-- Whether an item carries both a `KEY` element and a `VALUE` element
(`itemValueText` answers `some _` exactly then) whose text is present and
non-empty. -/
def goodItem (item : XElem) : Bool :=
  match itemValueText item with
  | some (some s) => !(s = "")
  | some none => false
  | none => false

/-- The VALUE text of an item carrying both elements (joined through the
two optional layers). -/
def itemValue (item : XElem) : Option String :=
  (itemValueText item).join

/-- Restatement of the amended C9 claim as a definition: the extracted id is
the VALUE text of the LAST candidate item that carries a `KEY` element and a
`VALUE` element with non-empty text; `none` when there is no `ITEM_LIST`
descendant or no such item.  Compared against `extract_report_id`. -/
def extract_report_id_amendedModel (root : XElem) : Option String :=
  match findDesc "ITEM_LIST" root.children with
  | none => none
  | some il => (((candidateItems il).filter goodItem).getLast?).bind itemValue

/-- A non-terminal status-check result: a raised exception, a missing
status, or a status other than `Finished`/`Error`/`Cancelled`. -/
def transientPoll (res : PollResult) : Prop :=
  res = .exn ∨ res = .status none ∨
    ∃ s, res = .status (some s) ∧ s ≠ "Finished" ∧ s ≠ "Error" ∧ s ≠ "Cancelled"

/-- A status check reporting an explicit remote failure state. -/
def errorPoll (res : PollResult) : Prop :=
  res = .status (some "Error") ∨ res = .status (some "Cancelled")

/-! ### Concrete inputs used by counterexamples and witnesses -/

/-- A sample `ITEM` with a `KEY` child and a `VALUE` child of given text. -/
def sampleItem (v : Option String) : XElem :=
  .mk "ITEM" none [.mk "KEY" (some "ID") [], .mk "VALUE" v []]

/-- A create-report response whose last KEY/VALUE item has an empty VALUE:
`<R><ITEM_LIST><ITEM><KEY>ID</KEY><VALUE>A</VALUE></ITEM>
<ITEM><KEY>ID</KEY><VALUE/></ITEM></ITEM_LIST></R>`. -/
def responseEmptyLastValue : XElem :=
  .mk "R" none [.mk "ITEM_LIST" none [sampleItem (some "A"), sampleItem none]]

/-- A create-report response with two non-empty KEY/VALUE items. -/
def responseTwoValues : XElem :=
  .mk "R" none [.mk "ITEM_LIST" none [sampleItem (some "A"), sampleItem (some "B")]]

/-- Report configurations distinguished by title. -/
def sampleCfg (t : String) : ReportConfig :=
  ⟨"scan_based", some "scan/123", "tmpl", "pdf", t⟩

/-- Environment for C1: creating the first config fails (remote returns no
id), the second succeeds; everything else is ideal. -/
def envDropDup : BatchEnv :=
  { maxRunningReports := 8
    runningCount := 0
    create := fun c => if c.title = "alpha" then .noId else .created "RB"
    poll := fun _ _ => .status (some "Finished")
    download := fun _ => .file "beta.pdf" }

/-- Environment for C2: the remote always reports all 8 slots busy, so every
batch call returns an empty result list. -/
def envNoSlots : BatchEnv :=
  { maxRunningReports := 8
    runningCount := 8
    create := fun _ => .created "RX"
    poll := fun _ _ => .status (some "Finished")
    download := fun _ => .file "x.pdf" }

/-- Environment for C3/C8: both creations succeed; report `R1` is polled
`Error` on every sweep, report `R2` stays `Running` forever. -/
def envErrorVsTimeout : BatchEnv :=
  { maxRunningReports := 8
    runningCount := 0
    create := fun c => if c.title = "alpha" then .created "R1" else .created "R2"
    poll := fun _ rid => if rid = "R1" then .status (some "Error") else .status (some "Running")
    download := fun _ => .file "never.pdf" }

/-- Environment for C7: the first creation raises (as the quota gate does
when the user declines inside a create call), the second succeeds and
completes. -/
def envQuotaDecline : BatchEnv :=
  { maxRunningReports := 8
    runningCount := 0
    create := fun c => if c.title = "alpha" then .raised else .created "R2"
    poll := fun _ _ => .status (some "Finished")
    download := fun _ => .file "r2.pdf" }

/-- A slot query that raises on every call. -/
def alwaysFailingQuery : Nat → Except Unit Nat := fun _ => .error ()

/-- A slot query showing 8 of 8 jobs running on iterations 0 and 1, then 3. -/
def slotsFreeAt2 : Nat → Except Unit Nat := fun i => if i < 2 then .ok 8 else .ok 3

/-! ## Helper lemmas -/

theorem head?_filterMap (f : α → Option β) :
    ∀ l : List α, (l.filterMap f).head? = ((l.filter fun a => (f a).isSome).head?).bind f := by
  intro l
  induction l with
  | nil => rfl
  | cons a l ih =>
    cases h : f a with
    | none =>
      rw [List.filterMap_cons, h, List.filter_cons]
      simp only [h, Option.isSome_none]
      simpa using ih
    | some b =>
      rw [List.filterMap_cons, h, List.filter_cons]
      simp [h]

theorem getLast?_filterMap (f : α → Option β) (l : List α) :
    (l.filterMap f).getLast? = ((l.filter fun a => (f a).isSome).getLast?).bind f := by
  rw [List.getLast?_eq_head?_reverse, List.getLast?_eq_head?_reverse,
    ← List.filterMap_reverse, ← List.filter_reverse, head?_filterMap]

theorem createdInfo_map_fst (env : BatchEnv) :
    ∀ batch : List ReportConfig,
      (createdInfo env batch).map Prod.fst = batch.filter (fun c => isCreated (env.create c)) := by
  intro batch
  induction batch with
  | nil => rfl
  | cons c rest ih =>
    unfold createdInfo at ih ⊢
    rw [List.filterMap_cons, List.filter_cons]
    cases h : env.create c <;> simp [h, isCreated, ih]

theorem phase3Entry_config (env : BatchEnv) (M : MonitorState) (p : ReportConfig × String) :
    (phase3Entry env M p).config = p.1 := by
  unfold phase3Entry
  by_cases hc : M.completed.contains p.2
  · rw [if_pos hc]
    cases env.download p.2 <;> rfl
  · rw [if_neg hc]

theorem phase3Entry_report_id (env : BatchEnv) (M : MonitorState) (p : ReportConfig × String) :
    (phase3Entry env M p).report_id = p.2 := by
  unfold phase3Entry
  by_cases hc : M.completed.contains p.2
  · rw [if_pos hc]
    cases env.download p.2 <;> rfl
  · rw [if_neg hc]

theorem phase3Entry_timeout_iff (env : BatchEnv) (M : MonitorState) (p : ReportConfig × String) :
    (phase3Entry env M p).status = .timeout ↔ ¬ M.completed.contains p.2 = true := by
  unfold phase3Entry
  by_cases hc : M.completed.contains p.2
  · rw [if_pos hc]
    cases env.download p.2 <;> exact iff_of_false (by simp) (fun hn => hn hc)
  · rw [if_neg hc]
    exact iff_of_true rfl hc

theorem batch_results_map_config (env : BatchEnv) (configs : List ReportConfig) (maxb : Nat) :
    ((create_and_wait_reports_batch env configs maxb).results).map (fun r => r.config)
      = (configs.take (actualBatchSize env configs maxb).toNat).filter
          (fun c => isCreated (env.create c)) := by
  unfold create_and_wait_reports_batch
  by_cases hemp : configs.isEmpty
  · have : configs = [] := List.isEmpty_iff.mp hemp
    subst this
    simp
  · simp only [hemp, Bool.false_eq_true, if_false]
    by_cases hact : actualBatchSize env configs maxb ≤ 0
    · have : (actualBatchSize env configs maxb).toNat = 0 := Int.toNat_of_nonpos hact
      simp [hact, this]
    · simp only [hact, if_false]
      set batch := configs.take (actualBatchSize env configs maxb).toNat with hbatch
      by_cases hcr : ((createdInfo env batch).map (fun p => p.2)).isEmpty
      · have hinfo : createdInfo env batch = [] := by
          have := List.isEmpty_iff.mp hcr
          exact List.map_eq_nil_iff.mp this
        rw [← createdInfo_map_fst, hinfo]
        simp [hcr]
      · simp only [hcr, Bool.false_eq_true, if_false]
        rw [← createdInfo_map_fst, List.map_map]
        refine List.map_congr_left ?_
        intro p _
        simp only [Function.comp_apply]
        exact phase3Entry_config env _ p

/-! ## Claim C1 -/

/-- C1: the claim fails on the code and the code contradicts the spec's
explicit guarantee.  With two requests `alpha`, `beta` where the creation of
`alpha` returns no report id and everything else succeeds, the v2 driver
returns a result list whose configurations are `[beta, beta]`: the request
`alpha` never appears (dropped without any outcome) and `beta` appears — and
was remotely processed — twice, because the driver drops
`len(batch_results)` requests from the remaining list while the batch
result omits failed creations. -/
theorem c1_failing_input_eval :
    (create_reports_with_smart_batching_v2 envDropDup
        [sampleCfg "alpha", sampleCfg "beta"] 4 3).2 = [] ∧
    ((create_reports_with_smart_batching_v2 envDropDup
        [sampleCfg "alpha", sampleCfg "beta"] 4 3).1).map (fun r => r.config)
      = [sampleCfg "beta", sampleCfg "beta"] := by
  exact ⟨by decide, by decide⟩

/-! ## Claim C2 -/

theorem smartBatchingV2Aux_stuck_noSlots :
    ∀ (fuel : Nat) (acc : List ProcessedReport),
      smartBatchingV2Aux envNoSlots 4 fuel [sampleCfg "alpha"] acc
        = (acc, [sampleCfg "alpha"]) := by
  intro fuel
  induction fuel with
  | zero => intro acc; rfl
  | succ n ih =>
    intro acc
    have h : smartBatchingV2Aux envNoSlots 4 (n + 1) [sampleCfg "alpha"] acc
        = smartBatchingV2Aux envNoSlots 4 n [sampleCfg "alpha"] (acc ++ []) := rfl
    rw [h, List.append_nil]
    exact ih acc

/-- C2: the claim fails on the code.  With one request and a remote that
always reports all 8 slots busy, every `create_and_wait_reports_batch` call
returns an empty result list, the driver removes nothing from
`remaining_reports`, and the outer loop never terminates: after any number
`fuel` of iterations the remaining list is still the full request list and
no result has been produced. -/
theorem c2_failing_input_eval :
    ∀ fuel : Nat,
      create_reports_with_smart_batching_v2 envNoSlots [sampleCfg "alpha"] 4 fuel
        = ([], [sampleCfg "alpha"]) := by
  intro fuel
  have h : create_reports_with_smart_batching_v2 envNoSlots [sampleCfg "alpha"] 4 fuel
      = smartBatchingV2Aux envNoSlots 4 fuel [sampleCfg "alpha"] [] := rfl
  rw [h, smartBatchingV2Aux_stuck_noSlots]

/-! ## Claim C6 -/

/-- C6 counterexample: the claim (and the spec sentence it comes from) says a
failed running-count query fails open to the configured maximum.  Under the
spec's reading, with `maxRunningSlots = 8` and `required = 1`, the very
first (failed) observation would yield `availableSlots() = 8 ≥ 1` and the
wait would succeed immediately; the code instead treats every failed query
as a fruitless iteration and returns `false` after the full timeout
(here `max_wait = 60`, `check_interval = 30`: two iterations, 60 s slept). -/
theorem c6_counterexample :
    availableSlots_specModel 8 (alwaysFailingQuery 0) = 8 ∧
    wait_for_report_slots alwaysFailingQuery 8 1 60 30 = (false, 60) := by
  exact ⟨rfl, by decide⟩

/-- C6 (amended): when the running-count query raises, the iteration is
treated as having observed insufficient slots — the wait logs, sleeps and
retries, and if every query fails it returns `false` after the full budget
of iterations; availability is never assumed to be the configured maximum. -/
theorem c6_amended_failed_query_never_opens (query : Nat → Except Unit Nat)
    (maxRunning required max_wait check_interval : Nat)
    (h : ∀ i, query i = .error ()) :
    wait_for_report_slots query maxRunning required max_wait check_interval
      = (false, loopBudget max_wait check_interval * check_interval) := by
  have aux : ∀ fuel i, waitSlotsAux query maxRunning required check_interval fuel i
      = (false, (i + fuel) * check_interval) := by
    intro fuel
    induction fuel with
    | zero => intro i; simp [waitSlotsAux]
    | succ n ih =>
      intro i
      rw [waitSlotsAux, h i]
      simp only [slotObsGood, Bool.false_eq_true, if_false]
      rw [ih (i + 1)]
      ring_nf
  have := aux (loopBudget max_wait check_interval) 0
  simpa [wait_for_report_slots] using this

/-- Witness for C6's amended theorem at a concrete input. -/
theorem c6_amended_witness :
    wait_for_report_slots alwaysFailingQuery 8 1 1800 30 = (false, 1800) := by
  have h := c6_amended_failed_query_never_opens alwaysFailingQuery 8 1 1800 30 (fun _ => rfl)
  simpa using h

/-! ## Claim C10 -/

/-- C10: while `rate_limit_remaining` is still `None` (no response carrying
a rate-limit header has been observed), `_check_rate_limit` emits no
warning, prompts nobody and raises nothing — every request is admitted. -/
theorem c10_no_rate_gate_before_first_header (input : String) :
    check_rate_limit none input = ⟨false, false, false⟩ := rfl

/-! ## Claim C7 -/

/-- C7 counterexample: quota `remaining = 3` (below the critical mark 5) and
the user answers `non`: `_check_rate_limit` warns, prompts and raises.  But
when this raise happens inside a creation call — the only calls the batch
loop makes per request — the orchestrator catches it (lines 476-477), skips
just that request and keeps going: the batch result still processes the
sibling request `beta` to completion, so the run does not stop with a
quota error, contradicting the claim. -/
theorem c7_counterexample :
    check_rate_limit (some 3) "non" = ⟨true, true, true⟩ ∧
    (create_and_wait_reports_batch envQuotaDecline
        [sampleCfg "alpha", sampleCfg "beta"] 4).results
      = [⟨sampleCfg "beta", "R2", .downloaded, some "r2.pdf"⟩] := by
  exact ⟨by decide, by decide⟩

/-- C7 (amended): before each request the gate warns iff the last observed
remaining quota is below 10, prompts iff it is below 5, and raises an
`APIError` iff it is below 5 and the user's (lowercased, stripped) answer is
not an accepted confirmation.  A raise during a creation call does not stop
the run: the orchestrator catches per-request creation exceptions, so a
batch's results are exactly the admitted-prefix requests whose creation
succeeded — the declined request is skipped, siblings and already-completed
outcomes are unaffected. -/
theorem c7_amended_quota_gate (r : Int) (input : String) (env : BatchEnv)
    (configs : List ReportConfig) (maxb : Nat) :
    (check_rate_limit (some r) input).warned = decide (r < 10) ∧
    (check_rate_limit (some r) input).prompted = decide (r < 5) ∧
    (check_rate_limit (some r) input).raised
      = (decide (r < 5) && !(["oui", "yes", "y", "o"].contains input)) ∧
    ((create_and_wait_reports_batch env configs maxb).results).map (fun pr => pr.config)
      = (configs.take (actualBatchSize env configs maxb).toNat).filter
          (fun c => isCreated (env.create c)) := by
  refine ⟨?_, ?_, ?_, batch_results_map_config env configs maxb⟩ <;>
    · by_cases h5 : r < 5
      · have h10 : r < 10 := by omega
        simp [check_rate_limit, h5, h10]
      · by_cases h10 : r < 10 <;> simp [check_rate_limit, h5, h10]

/-! ## Claim C9 -/

/-- C9 counterexample: a response whose `ITEM_LIST` has two KEY/VALUE items,
the second with an absent (empty) VALUE text.  The VALUE text of the last
item carrying both elements is absent, and the legacy extractor in
`qualys.py` — which literally returns the last both-element item's text —
yields `none`; but `QualysClient._extract_report_id` skips falsy texts and
returns the EARLIER item's value `"A"`, so the claimed description is false
for it. -/
theorem c9_counterexample :
    extract_report_id responseEmptyLastValue = some "A" ∧
    extract_report_id_legacy responseEmptyLastValue = none := by
  constructor
  · simp [extract_report_id, findDesc, responseEmptyLastValue, sampleItem, candidateItems,
      XElem.findAll, XElem.findChild, itemValueText, clientValuePick,
      XElem.children, XElem.tag, XElem.text]
  · simp [extract_report_id_legacy, findDesc, responseEmptyLastValue, sampleItem, candidateItems,
      XElem.findAll, XElem.findChild, itemValueText,
      XElem.children, XElem.tag, XElem.text]

theorem clientValuePick_isSome_eq_goodItem (item : XElem) :
    (clientValuePick item).isSome = goodItem item := by
  unfold clientValuePick goodItem
  cases h : itemValueText item with
  | none => rfl
  | some t =>
    cases t with
    | none => rfl
    | some s => by_cases hs : s = "" <;> simp [hs]

theorem clientValuePick_eq_itemValue_of_good (item : XElem) (h : goodItem item = true) :
    clientValuePick item = itemValue item := by
  unfold goodItem at h
  unfold clientValuePick itemValue
  cases ht : itemValueText item with
  | none => rw [ht] at h; simp at h
  | some t =>
    cases t with
    | none => rw [ht] at h; simp at h
    | some s =>
      rw [ht] at h
      have hs : s ≠ "" := by simpa using h
      simp [hs, Option.join]

/-- C9 (amended): `_extract_report_id` returns the VALUE text of the last
candidate item that carries both a `KEY` and a `VALUE` element AND whose
VALUE text is present and non-empty (later such items override earlier
ones); it returns `none` — it is a total function, nothing is raised — when
the response has no `ITEM_LIST` descendant or no such item.  Candidate
items are the `ITEM` children of the first `ITEM_LIST`, or `ITEM_LIST`
itself when it has no `ITEM` child but directly carries a `KEY`.  Stated as
equality with `extract_report_id_amendedModel`, the direct transcription of
that description. -/
theorem c9_amended_extract_last_nonempty_value (root : XElem) :
    extract_report_id root = extract_report_id_amendedModel root := by
  unfold extract_report_id extract_report_id_amendedModel
  cases hfd : findDesc "ITEM_LIST" root.children with
  | none => rfl
  | some il =>
    simp only []
    by_cases hemp : (candidateItems il).isEmpty
    · have : candidateItems il = [] := List.isEmpty_iff.mp hemp
      rw [if_pos hemp, this]
      rfl
    · rw [if_neg hemp, getLast?_filterMap]
      have hfili : (candidateItems il).filter (fun a => (clientValuePick a).isSome)
          = (candidateItems il).filter goodItem := by
        refine List.filter_congr ?_
        intro x _
        exact clientValuePick_isSome_eq_goodItem x
      rw [hfili]
      cases hlast : ((candidateItems il).filter goodItem).getLast? with
      | none => rfl
      | some x =>
        have hx : x ∈ (candidateItems il).filter goodItem := by
          obtain ⟨hne, hex⟩ := List.mem_getLast?_eq_getLast
            (l := (candidateItems il).filter goodItem) (x := x) (by rw [hlast]; rfl)
          rw [hex]
          exact List.getLast_mem hne
        have hgood : goodItem x = true := (List.mem_filter.mp hx).2
        exact clientValuePick_eq_itemValue_of_good x hgood

/-! ## Claim C4 -/

theorem total_batches_zero (b : Nat) : total_batches 0 b = 0 := by
  unfold total_batches
  cases b with
  | zero => rfl
  | succ b => simpa using Nat.div_eq_of_lt (Nat.lt_succ_of_le (Nat.le_refl b))

theorem total_batches_succ (n b : Nat) (hn : 0 < n) (hb : 0 < b) :
    total_batches n b = total_batches (n - b) b + 1 := by
  unfold total_batches
  rcases le_or_lt n b with hnb | hnb
  · have h0 : n - b = 0 := by omega
    rw [h0]
    have h1 : 1 * b ≤ n + b - 1 := by omega
    have h2 : n + b - 1 < (1 + 1) * b := by omega
    rw [Nat.div_eq_of_lt_le h1 h2]
    cases b with
    | zero => omega
    | succ b => simp [Nat.div_eq_of_lt (Nat.lt_succ_of_le (Nat.le_refl b))]
  · have h3 : n + b - 1 = (n - b + b - 1) + b := by omega
    rw [h3, Nat.add_div_right _ hb]

theorem plan_nil {α : Type _} (b : Nat) : plan ([] : List α) b = [] := by
  simp [plan, total_batches_zero]

theorem plan_cons {α : Type _} (R : List α) (b : Nat) (hR : R ≠ []) (hb : 0 < b) :
    plan R b = R.take b :: plan (R.drop b) b := by
  have hlen : 0 < R.length := List.length_pos.mpr hR
  unfold plan
  rw [total_batches_succ R.length b hlen hb, List.range_succ_eq_map, List.map_cons]
  congr 1
  · simp [planSlice]
  · rw [List.map_map, List.length_drop]
    refine List.map_congr_left ?_
    intro i _
    simp only [Function.comp_apply, planSlice]
    rw [List.drop_drop, Nat.succ_mul, Nat.add_comm (i * b) b]

theorem plan_flatten_aux {α : Type _} (b : Nat) (hb : 0 < b) :
    ∀ (n : Nat) (R : List α), R.length ≤ n → (plan R b).flatten = R := by
  intro n
  induction n with
  | zero =>
    intro R hR
    have : R = [] := List.eq_nil_of_length_eq_zero (by omega)
    subst this
    simp [plan_nil]
  | succ n ih =>
    intro R hR
    by_cases hR' : R = []
    · subst hR'
      simp [plan_nil]
    · have hlen : 0 < R.length := List.length_pos.mpr hR'
      rw [plan_cons R b hR' hb, List.flatten_cons, ih (R.drop b) ?_, List.take_append_drop]
      rw [List.length_drop]
      omega

theorem plan_slice_length_le {α : Type _} (R : List α) (b : Nat) :
    ∀ s ∈ plan R b, s.length ≤ b := by
  intro s hs
  simp only [plan, List.mem_map] at hs
  obtain ⟨i, _, rfl⟩ := hs
  simp only [planSlice, List.length_take]
  omega

theorem plan_dropLast_full {α : Type _} (b : Nat) (hb : 0 < b) :
    ∀ (n : Nat) (R : List α), R.length ≤ n → ∀ s ∈ (plan R b).dropLast, s.length = b := by
  intro n
  induction n with
  | zero =>
    intro R hR s hs
    have : R = [] := List.eq_nil_of_length_eq_zero (by omega)
    subst this
    rw [plan_nil] at hs
    simp at hs
  | succ n ih =>
    intro R hR s hs
    by_cases hR' : R = []
    · subst hR'
      rw [plan_nil] at hs
      simp at hs
    · rw [plan_cons R b hR' hb] at hs
      by_cases hrest : plan (R.drop b) b = []
      · rw [hrest] at hs
        simp at hs
      · rw [List.dropLast_cons_of_ne_nil hrest] at hs
        rcases List.mem_cons.mp hs with hhead | htail
        · have hdrop : R.drop b ≠ [] := by
            intro hd
            rw [hd, plan_nil] at hrest
            exact hrest rfl
          have hblt : b < R.length := by
            by_contra hle
            exact hdrop (List.drop_eq_nil_of_le (by omega))
          rw [hhead, List.length_take]
          omega
        · refine ih (R.drop b) ?_ s htail
          rw [List.length_drop]
          have : 0 < R.length := List.length_pos.mpr hR'
          omega

theorem range'_zero_mul (b : Nat) :
    ∀ (k s : Nat), List.range' s k b = (List.range k).map (fun i => s + i * b) := by
  intro k
  induction k with
  | zero => intro s; rfl
  | succ k ih =>
    intro s
    rw [List.range'_succ, List.range_succ_eq_map, List.map_cons, ih (s + b), List.map_map]
    simp only [Nat.zero_mul, Nat.add_zero]
    congr 1
    refine List.map_congr_left ?_
    intro i _
    simp only [Function.comp_apply, Nat.succ_mul]
    omega

theorem plan_main_eq_plan {α : Type _} (R : List α) (b : Nat) : plan_main R b = plan R b := by
  unfold plan_main plan
  rw [range'_zero_mul b (total_batches R.length b) 0, List.map_map]
  refine List.map_congr_left ?_
  intro i _
  simp [planSlice]

/-- C4: for every request list and positive batch size, the batch-planning
step of `create_reports_with_smart_batching` is a partition: the
concatenation of the slices reproduces the list in order (no loss, no
duplication), every slice has length at most the batch size, every slice
except possibly the last is exactly full, and the stride-based plan of
`process_network_scans_pdf` in `main.py` produces the very same slices.
Determinism/purity holds by construction: both plans are functions of
`(R, b)` alone. -/
theorem c4_batch_plan_partition {α : Type _} (R : List α) (b : Nat) (hb : 0 < b) :
    (plan R b).flatten = R ∧
    (∀ s ∈ plan R b, s.length ≤ b) ∧
    (∀ s ∈ (plan R b).dropLast, s.length = b) ∧
    plan_main R b = plan R b :=
  ⟨plan_flatten_aux b hb R.length R le_rfl, plan_slice_length_le R b,
    plan_dropLast_full b hb R.length R le_rfl, plan_main_eq_plan R b⟩

/-- Witness for C4 at a concrete input: ten requests, batch size 4. -/
theorem c4_batch_plan_partition_witness :
    (plan [0, 1, 2, 3, 4, 5, 6, 7, 8, 9] 4).flatten = [0, 1, 2, 3, 4, 5, 6, 7, 8, 9] ∧
    plan_main [0, 1, 2, 3, 4, 5, 6, 7, 8, 9] 4 = plan [0, 1, 2, 3, 4, 5, 6, 7, 8, 9] 4 :=
  ⟨(c4_batch_plan_partition [0, 1, 2, 3, 4, 5, 6, 7, 8, 9] 4 (by decide)).1,
    (c4_batch_plan_partition [0, 1, 2, 3, 4, 5, 6, 7, 8, 9] 4 (by decide)).2.2.2⟩

/-! ## Claim C5 -/

/-- Index of the first loop iteration whose slot observation is sufficient,
among the iterations the wait budget allows. -/
def firstGoodObs (query : Nat → Except Unit Nat) (maxRunning required budget : Nat) :
    Option Nat :=
  (List.range budget).find? (fun i => slotObsGood maxRunning required (query i))

theorem waitSlotsAux_eq_find (query : Nat → Except Unit Nat)
    (maxRunning required check_interval : Nat) :
    ∀ (fuel start : Nat),
      waitSlotsAux query maxRunning required check_interval fuel start =
        match (List.range' start fuel).find?
            (fun i => slotObsGood maxRunning required (query i)) with
        | some i => (true, i * check_interval)
        | none => (false, (start + fuel) * check_interval) := by
  intro fuel
  induction fuel with
  | zero => intro start; simp [waitSlotsAux]
  | succ n ih =>
    intro start
    rw [waitSlotsAux, List.range'_succ, List.find?_cons]
    cases hg : slotObsGood maxRunning required (query start) with
    | true => simp
    | false =>
      simp only [Bool.false_eq_true, if_false]
      rw [ih (start + 1)]
      have harith : start + 1 + n = start + (n + 1) := by omega
      rw [harith]

/-- C5: with a positive poll interval, `wait_for_report_slots` terminates on
every oracle: it returns `true` exactly when some in-budget observation
shows `max_running_reports - running_count >= required_slots`; it returns
`true` at the FIRST such observation, having slept `check_interval` seconds
per earlier iteration; and when no observation is sufficient — including
when every query raises — it returns `false` after
`⌈max_wait/check_interval⌉` iterations, whose accumulated waiting is less
than `max_wait + check_interval`. -/
theorem c5_slot_wait_terminates (query : Nat → Except Unit Nat)
    (maxRunning required max_wait check_interval : Nat) (hiv : 0 < check_interval) :
    ((wait_for_report_slots query maxRunning required max_wait check_interval).1 = true
      ↔ ∃ i, i < loopBudget max_wait check_interval ∧
          slotObsGood maxRunning required (query i) = true) ∧
    (∀ i, firstGoodObs query maxRunning required (loopBudget max_wait check_interval) = some i →
      wait_for_report_slots query maxRunning required max_wait check_interval
        = (true, i * check_interval)) ∧
    (firstGoodObs query maxRunning required (loopBudget max_wait check_interval) = none →
      wait_for_report_slots query maxRunning required max_wait check_interval
        = (false, loopBudget max_wait check_interval * check_interval)) ∧
    loopBudget max_wait check_interval * check_interval < max_wait + check_interval := by
  have hbase : wait_for_report_slots query maxRunning required max_wait check_interval =
      match firstGoodObs query maxRunning required (loopBudget max_wait check_interval) with
      | some i => (true, i * check_interval)
      | none => (false, loopBudget max_wait check_interval * check_interval) := by
    unfold wait_for_report_slots firstGoodObs
    rw [waitSlotsAux_eq_find, List.range_eq_range']
    cases (List.range' 0 (loopBudget max_wait check_interval)).find?
        (fun i => slotObsGood maxRunning required (query i)) with
    | none => simp
    | some i => rfl
  refine ⟨?_, ?_, ?_, ?_⟩
  · rw [hbase]
    cases hf : firstGoodObs query maxRunning required (loopBudget max_wait check_interval) with
    | none =>
      unfold firstGoodObs at hf
      simp only []
      constructor
      · intro h
        exact absurd h (by simp)
      · rintro ⟨i, hilt, hgood⟩
        have hnone := List.find?_eq_none.mp hf i (List.mem_range.mpr hilt)
        rw [hgood] at hnone
        simp at hnone
    | some i =>
      unfold firstGoodObs at hf
      simp only []
      constructor
      · intro _
        have hp := List.find?_some
          (p := fun j => slotObsGood maxRunning required (query j)) (a := i) hf
        exact ⟨i, List.mem_range.mp (List.mem_of_find?_eq_some hf), hp⟩
      · intro _
        trivial
  · intro i hf
    rw [hbase, hf]
  · intro hf
    rw [hbase, hf]
  · have h1 : loopBudget max_wait check_interval * check_interval
        ≤ max_wait + check_interval - 1 := by
      unfold loopBudget
      exact Nat.div_mul_le_self _ _
    omega

/-- Witness for C5 at concrete inputs: the query raises twice and then shows
5 free slots of 8, with `max_wait = 1800` and a 30-second interval; the
wait returns `true` after two slept intervals. -/
theorem c5_slot_wait_terminates_witness :
    wait_for_report_slots slotsFreeAt2 8 1 1800 30 = (true, 60) := by
  have h := (c5_slot_wait_terminates slotsFreeAt2 8 1 1800 30 (by decide)).2.1 2 (by decide)
  simpa using h

/-! ## Monitor lemmas (shared by C3 and C8) -/

theorem pollOne_mem_completed (poll : Nat → String → PollResult) (k : Nat)
    (st : MonitorState) (r rid : String) :
    rid ∈ (pollOne poll k st r).completed ↔
      rid ∈ st.completed ∨ (rid = r ∧ poll k r = .status (some "Finished")) := by
  cases h : poll k r with
  | exn => simp [pollOne, h]
  | status so =>
    cases so with
    | none => simp [pollOne, h]
    | some s =>
      by_cases hf : s = "Finished"
      · subst hf
        simp [pollOne, h]
      · by_cases he : s = "Error" ∨ s = "Cancelled"
        · simp [pollOne, h, hf, he]
        · simp [pollOne, h, hf, he]

theorem pollOne_mem_failed (poll : Nat → String → PollResult) (k : Nat)
    (st : MonitorState) (r rid : String) :
    rid ∈ (pollOne poll k st r).failed ↔
      rid ∈ st.failed ∨ (rid = r ∧ errorPoll (poll k r)) := by
  cases h : poll k r with
  | exn => simp [pollOne, h, errorPoll]
  | status so =>
    cases so with
    | none => simp [pollOne, h, errorPoll]
    | some s =>
      by_cases hf : s = "Finished"
      · subst hf
        simp [pollOne, h, errorPoll]
      · by_cases he : s = "Error" ∨ s = "Cancelled"
        · rcases he with rfl | rfl <;> simp [pollOne, h, errorPoll, hf]
        · have h1 : ¬ s = "Error" := fun hc => he (Or.inl hc)
          have h2 : ¬ s = "Cancelled" := fun hc => he (Or.inr hc)
          simp [pollOne, h, errorPoll, hf, h1, h2]

theorem pollOne_db_eq (poll : Nat → String → PollResult) (k : Nat) (st : MonitorState)
    (r : String) (h : st.failed = st.dbErrorWrites) :
    (pollOne poll k st r).failed = (pollOne poll k st r).dbErrorWrites := by
  cases hp : poll k r with
  | exn => simpa [pollOne, hp] using h
  | status so =>
    cases so with
    | none => simpa [pollOne, hp] using h
    | some s =>
      by_cases hf : s = "Finished"
      · subst hf
        simpa [pollOne, hp] using h
      · by_cases he : s = "Error" ∨ s = "Cancelled"
        · simp only [pollOne, hp]
          rw [if_neg hf, if_pos he]
          simpa using congrArg (fun l => l ++ [r]) h
        · simp only [pollOne, hp]
          rw [if_neg hf, if_neg he]
          exact h

theorem sweep_mem_completed (poll : Nat → String → PollResult) (k : Nat) :
    ∀ (rem : List String) (st : MonitorState) (rid : String),
      rid ∈ (sweep poll k rem st).completed ↔
        rid ∈ st.completed ∨ (rid ∈ rem ∧ poll k rid = .status (some "Finished")) := by
  intro rem
  induction rem with
  | nil => intro st rid; simp [sweep]
  | cons r rem ih =>
    intro st rid
    have hstep : sweep poll k (r :: rem) st = sweep poll k rem (pollOne poll k st r) := rfl
    rw [hstep, ih, pollOne_mem_completed]
    constructor
    · rintro ((hc | ⟨rfl, hp⟩) | ⟨hm, hp⟩)
      · exact Or.inl hc
      · exact Or.inr ⟨List.mem_cons_self _ _, hp⟩
      · exact Or.inr ⟨List.mem_cons_of_mem _ hm, hp⟩
    · rintro (hc | ⟨hm, hp⟩)
      · exact Or.inl (Or.inl hc)
      · rcases List.mem_cons.mp hm with rfl | hm'
        · exact Or.inl (Or.inr ⟨rfl, hp⟩)
        · exact Or.inr ⟨hm', hp⟩

theorem sweep_mem_failed (poll : Nat → String → PollResult) (k : Nat) :
    ∀ (rem : List String) (st : MonitorState) (rid : String),
      rid ∈ (sweep poll k rem st).failed ↔
        rid ∈ st.failed ∨ (rid ∈ rem ∧ errorPoll (poll k rid)) := by
  intro rem
  induction rem with
  | nil => intro st rid; simp [sweep]
  | cons r rem ih =>
    intro st rid
    have hstep : sweep poll k (r :: rem) st = sweep poll k rem (pollOne poll k st r) := rfl
    rw [hstep, ih, pollOne_mem_failed]
    constructor
    · rintro ((hc | ⟨rfl, hp⟩) | ⟨hm, hp⟩)
      · exact Or.inl hc
      · exact Or.inr ⟨List.mem_cons_self _ _, hp⟩
      · exact Or.inr ⟨List.mem_cons_of_mem _ hm, hp⟩
    · rintro (hc | ⟨hm, hp⟩)
      · exact Or.inl (Or.inl hc)
      · rcases List.mem_cons.mp hm with rfl | hm'
        · exact Or.inl (Or.inr ⟨rfl, hp⟩)
        · exact Or.inr ⟨hm', hp⟩

theorem sweep_db_eq (poll : Nat → String → PollResult) (k : Nat) :
    ∀ (rem : List String) (st : MonitorState), st.failed = st.dbErrorWrites →
      (sweep poll k rem st).failed = (sweep poll k rem st).dbErrorWrites := by
  intro rem
  induction rem with
  | nil => intro st h; exact h
  | cons r rem ih =>
    intro st h
    exact ih (pollOne poll k st r) (pollOne_db_eq poll k st r h)

theorem mem_activeIds (ids : List String) (st : MonitorState) (rid : String) :
    rid ∈ activeIds ids st ↔ rid ∈ ids ∧ rid ∉ st.completed ∧ rid ∉ st.failed := by
  simp [activeIds, List.mem_filter]

theorem contains_iff_mem_str (l : List String) (a : String) :
    l.contains a = true ↔ a ∈ l := by
  simp

theorem transient_not_finished (res : PollResult) (h : transientPoll res) :
    res ≠ .status (some "Finished") := by
  rcases h with h | h | ⟨s, hs, hf, _, _⟩ <;> subst_eqs <;> simp_all

theorem transient_not_error (res : PollResult) (h : transientPoll res) : ¬ errorPoll res := by
  rcases h with h | h | ⟨s, hs, _, he, hc⟩ <;> rintro (habs | habs) <;> subst_eqs <;> simp_all

theorem pollOne_transient_eq (poll : Nat → String → PollResult) (k : Nat)
    (st : MonitorState) (r : String) (h : transientPoll (poll k r)) :
    pollOne poll k st r = st := by
  rcases h with h | h | ⟨s, hs, h1, h2, h3⟩
  · simp [pollOne, h]
  · simp [pollOne, h]
  · simp [pollOne, hs, h1, h2, h3]

theorem monitorAux_mem_failed_sound (poll : Nat → String → PollResult) (ids : List String) :
    ∀ (fuel k : Nat) (st : MonitorState) (rid : String),
      rid ∈ (monitorAux poll ids fuel k st).failed →
        rid ∈ st.failed ∨ ∃ j, errorPoll (poll j rid) := by
  intro fuel
  induction fuel with
  | zero => intro k st rid h; exact Or.inl h
  | succ n ih =>
    intro k st rid h
    simp only [monitorAux] at h
    split at h
    · split at h
      · exact Or.inl h
      · rcases ih (k + 1) (sweep poll k (activeIds ids st) st) rid h with hsw | hex
        · rcases (sweep_mem_failed poll k (activeIds ids st) st rid).mp hsw with hst | ⟨_, hp⟩
          · exact Or.inl hst
          · exact Or.inr ⟨k, hp⟩
        · exact Or.inr hex
    · exact Or.inl h

theorem monitorAux_disjoint (poll : Nat → String → PollResult) (ids : List String) :
    ∀ (fuel k : Nat) (st : MonitorState),
      (∀ rid, rid ∈ st.completed → rid ∈ st.failed → False) →
      ∀ rid, rid ∈ (monitorAux poll ids fuel k st).completed →
        rid ∈ (monitorAux poll ids fuel k st).failed → False := by
  intro fuel
  induction fuel with
  | zero => intro k st hinv rid hc hf; exact hinv rid hc hf
  | succ n ih =>
    intro k st hinv rid hc hf
    simp only [monitorAux] at hc hf
    by_cases hg : st.completed.length + st.failed.length < ids.length
    · rw [if_pos hg] at hc hf
      by_cases hre : (activeIds ids st).isEmpty
      · rw [if_pos hre] at hc hf
        exact hinv rid hc hf
      · rw [if_neg hre] at hc hf
        refine ih (k + 1) (sweep poll k (activeIds ids st) st) ?_ rid hc hf
        intro x hxc hxf
        rcases (sweep_mem_completed poll k (activeIds ids st) st x).mp hxc with hxc' | ⟨hxm, hxp⟩ <;>
          rcases (sweep_mem_failed poll k (activeIds ids st) st x).mp hxf with hxf' | ⟨hxm', hxp'⟩
        · exact hinv x hxc' hxf'
        · exact ((mem_activeIds ids st x).mp hxm').2.1 hxc'
        · exact ((mem_activeIds ids st x).mp hxm).2.2 hxf'
        · rcases hxp' with hxp' | hxp' <;> rw [hxp] at hxp' <;> simp at hxp'
    · rw [if_neg hg] at hc hf
      exact hinv rid hc hf

theorem monitorAux_db_eq (poll : Nat → String → PollResult) (ids : List String) :
    ∀ (fuel k : Nat) (st : MonitorState), st.failed = st.dbErrorWrites →
      (monitorAux poll ids fuel k st).failed = (monitorAux poll ids fuel k st).dbErrorWrites := by
  intro fuel
  induction fuel with
  | zero => intro k st h; exact h
  | succ n ih =>
    intro k st h
    simp only [monitorAux]
    split
    · split
      · exact h
      · exact ih (k + 1) _ (sweep_db_eq poll k (activeIds ids st) st h)
    · exact h

theorem monitorAux_transient_stays (poll : Nat → String → PollResult) (ids : List String)
    (rid : String) (ht : ∀ j, transientPoll (poll j rid)) :
    ∀ (fuel k : Nat) (st : MonitorState), rid ∉ st.completed → rid ∉ st.failed →
      rid ∉ (monitorAux poll ids fuel k st).completed ∧
        rid ∉ (monitorAux poll ids fuel k st).failed := by
  intro fuel
  induction fuel with
  | zero => intro k st hc hf; exact ⟨hc, hf⟩
  | succ n ih =>
    intro k st hc hf
    simp only [monitorAux]
    split
    · split
      · exact ⟨hc, hf⟩
      · refine ih (k + 1) (sweep poll k (activeIds ids st) st) ?_ ?_
        · rw [sweep_mem_completed]
          rintro (h | ⟨_, hp⟩)
          · exact hc h
          · exact transient_not_finished _ (ht k) hp
        · rw [sweep_mem_failed]
          rintro (h | ⟨_, hp⟩)
          · exact hf h
          · exact transient_not_error _ (ht k) hp
    · exact ⟨hc, hf⟩

theorem monitor_reports_failed_sound (poll : Nat → String → PollResult) (ids : List String)
    (mw iv : Nat) (rid : String) (h : rid ∈ (monitor_reports poll ids mw iv).failed) :
    rid ∉ (monitor_reports poll ids mw iv).completed ∧
      rid ∈ (monitor_reports poll ids mw iv).dbErrorWrites ∧
      ∃ j, errorPoll (poll j rid) := by
  unfold monitor_reports at h ⊢
  by_cases hids : ids.isEmpty
  · rw [if_pos hids] at h
    simp [MonitorState.init] at h
  · rw [if_neg hids] at h ⊢
    refine ⟨?_, ?_, ?_⟩
    · intro hc
      exact monitorAux_disjoint poll ids (loopBudget mw iv) 0 MonitorState.init
        (by intro x hx _; simp [MonitorState.init] at hx) rid hc h
    · rw [← monitorAux_db_eq poll ids (loopBudget mw iv) 0 MonitorState.init rfl]
      exact h
    · rcases monitorAux_mem_failed_sound poll ids (loopBudget mw iv) 0 MonitorState.init rid h with
        habs | hex
      · simp [MonitorState.init] at habs
      · exact hex

theorem monitor_reports_transient_stays (poll : Nat → String → PollResult) (ids : List String)
    (mw iv : Nat) (rid : String) (ht : ∀ j, transientPoll (poll j rid)) :
    rid ∉ (monitor_reports poll ids mw iv).completed ∧
      rid ∉ (monitor_reports poll ids mw iv).failed := by
  unfold monitor_reports
  split
  · simp [MonitorState.init]
  · exact monitorAux_transient_stays poll ids rid ht (loopBudget mw iv) 0 MonitorState.init
      (by simp [MonitorState.init]) (by simp [MonitorState.init])

/-! ## Claim C3 -/

theorem batch_entry_spec (env : BatchEnv) (configs : List ReportConfig) (maxb : Nat) :
    ∀ e ∈ (create_and_wait_reports_batch env configs maxb).results,
      (e.status = .timeout ↔
        e.report_id ∉ (create_and_wait_reports_batch env configs maxb).monitor.completed) ∧
      (e.status = .timeout →
        e.report_id ∉ (create_and_wait_reports_batch env configs maxb).downloadCalls) := by
  unfold create_and_wait_reports_batch
  by_cases hemp : configs.isEmpty
  · rw [if_pos hemp]
    intro e he
    simp at he
  · rw [if_neg hemp]
    by_cases hact : actualBatchSize env configs maxb ≤ 0
    · rw [if_pos hact]
      intro e he
      simp at he
    · rw [if_neg hact]
      by_cases hcr : ((createdInfo env
          (configs.take (actualBatchSize env configs maxb).toNat)).map (fun p => p.2)).isEmpty
      · rw [if_pos hcr]
        intro e he
        simp at he
      · rw [if_neg hcr]
        intro e he
        simp only [List.mem_map] at he
        obtain ⟨p, hp, rfl⟩ := he
        constructor
        · rw [phase3Entry_report_id, phase3Entry_timeout_iff]
          constructor
          · intro hnc hm
            exact hnc ((contains_iff_mem_str _ _).mpr hm)
          · intro hnm hc
            exact hnm ((contains_iff_mem_str _ _).mp hc)
        · intro hto hcall
          have hcn := (phase3Entry_timeout_iff env _ p).mp hto
          rw [phase3Entry_report_id] at hcall
          simp only [List.mem_filterMap] at hcall
          obtain ⟨q, _, hqe⟩ := hcall
          by_cases hqc : (monitor_reports env.poll
              ((createdInfo env (configs.take (actualBatchSize env configs maxb).toNat)).map
                (fun p => p.2)) 3600 30).completed.contains q.2
          · rw [if_pos hqc] at hqe
            have : q.2 = p.2 := by simpa using hqe
            rw [this] at hqc
            exact hcn hqc
          · rw [if_neg hqc] at hqe
            simp at hqe

theorem batch_monitor_failed_sound (env : BatchEnv) (configs : List ReportConfig) (maxb : Nat)
    (rid : String) (h : rid ∈ (create_and_wait_reports_batch env configs maxb).monitor.failed) :
    rid ∉ (create_and_wait_reports_batch env configs maxb).monitor.completed ∧
      rid ∈ (create_and_wait_reports_batch env configs maxb).monitor.dbErrorWrites ∧
      ∃ j, errorPoll (env.poll j rid) := by
  unfold create_and_wait_reports_batch at h ⊢
  by_cases hemp : configs.isEmpty
  · rw [if_pos hemp] at h
    simp [MonitorState.init] at h
  · rw [if_neg hemp] at h ⊢
    by_cases hact : actualBatchSize env configs maxb ≤ 0
    · rw [if_pos hact] at h
      simp [MonitorState.init] at h
    · rw [if_neg hact] at h ⊢
      by_cases hcr : ((createdInfo env
          (configs.take (actualBatchSize env configs maxb).toNat)).map (fun p => p.2)).isEmpty
      · rw [if_pos hcr] at h
        simp [MonitorState.init] at h
      · rw [if_neg hcr] at h ⊢
        exact monitor_reports_failed_sound env.poll _ 3600 30 rid h

/-- C3 counterexample: two requests whose creations succeed as `R1`, `R2`;
`R1` is polled `Error` on the first sweep, `R2` stays `Running` past the
deadline.  The monitor moves `R1` to its failed set and persists it as
`error`, yet the batch's returned results tag BOTH reports with the same
`timeout` outcome — the polled-`Error` job gets no failed outcome distinct
from the timed-out sibling (no download is attempted for either, as
claimed). -/
theorem c3_counterexample :
    (create_and_wait_reports_batch envErrorVsTimeout
        [sampleCfg "alpha", sampleCfg "beta"] 4).monitor.failed = ["R1"] ∧
    ((create_and_wait_reports_batch envErrorVsTimeout
        [sampleCfg "alpha", sampleCfg "beta"] 4).results).map (fun r => r.status)
      = [.timeout, .timeout] ∧
    (create_and_wait_reports_batch envErrorVsTimeout
        [sampleCfg "alpha", sampleCfg "beta"] 4).downloadCalls = [] := by
  exact ⟨by decide, by decide, by decide⟩

/-- C3 (amended): a job whose status check reports `Error`/`Cancelled` is
moved to the monitor's failed set and persisted as `error` to the record
store, and only explicit `Error`/`Cancelled` polls put it there — but in
the batch's returned results it carries the same `timeout` outcome as jobs
still non-terminal at the deadline: an entry is tagged `timeout` exactly
when its report id was never polled `Finished` (monitor-completed), whether
it errored or timed out; and a `timeout`-tagged job gets no download
attempt. -/
theorem c3_amended_error_tagged_timeout (env : BatchEnv) (configs : List ReportConfig)
    (maxb : Nat) (e : ProcessedReport)
    (he : e ∈ (create_and_wait_reports_batch env configs maxb).results) :
    (e.status = .timeout ↔
      e.report_id ∉ (create_and_wait_reports_batch env configs maxb).monitor.completed) ∧
    (e.report_id ∈ (create_and_wait_reports_batch env configs maxb).monitor.failed →
      e.status = .timeout) ∧
    (e.status = .timeout →
      e.report_id ∉ (create_and_wait_reports_batch env configs maxb).downloadCalls) ∧
    (e.report_id ∈ (create_and_wait_reports_batch env configs maxb).monitor.failed →
      e.report_id ∈ (create_and_wait_reports_batch env configs maxb).monitor.dbErrorWrites ∧
        ∃ j, errorPoll (env.poll j e.report_id)) := by
  refine ⟨(batch_entry_spec env configs maxb e he).1, ?_,
    (batch_entry_spec env configs maxb e he).2, ?_⟩
  · intro hf
    exact (batch_entry_spec env configs maxb e he).1.mpr
      (batch_monitor_failed_sound env configs maxb e.report_id hf).1
  · intro hf
    exact ⟨(batch_monitor_failed_sound env configs maxb e.report_id hf).2.1,
      (batch_monitor_failed_sound env configs maxb e.report_id hf).2.2⟩

/-- Witness for C3's amended theorem at the counterexample input: the
`Error`-polled report `R1` is persisted as `error` and some sweep indeed
polled it `Error` or `Cancelled`. -/
theorem c3_amended_error_tagged_timeout_witness :
    "R1" ∈ (create_and_wait_reports_batch envErrorVsTimeout
        [sampleCfg "alpha", sampleCfg "beta"] 4).monitor.dbErrorWrites ∧
    ∃ j, errorPoll (envErrorVsTimeout.poll j "R1") := by
  have h := c3_amended_error_tagged_timeout envErrorVsTimeout
    [sampleCfg "alpha", sampleCfg "beta"] 4
    ⟨sampleCfg "alpha", "R1", .timeout, none⟩ (by decide)
  exact h.2.2.2 (by decide)

/-! ## Claim C8 -/

/-- C8: during the polling phase (1) a status check that raises, returns no
status, or returns a non-terminal status leaves the monitor state — and
hence the active set — unchanged, so the job is simply retried at the next
sweep (a job with only such results is never completed nor failed for the
whole run); (2) a job enters the failed set only when some sweep's check
explicitly returned `Error` or `Cancelled`; (3) a sweep decides each job's
transition solely from that job's own status check (membership
characterisations), so one job's failed check cannot abort or alter its
siblings' outcomes. -/
theorem c8_transient_checks_retried_not_failed (poll : Nat → String → PollResult)
    (ids rem : List String) (mw iv k : Nat) (st : MonitorState) (rid : String) :
    (transientPoll (poll k rid) → pollOne poll k st rid = st) ∧
    (rid ∈ (sweep poll k rem st).completed ↔
      rid ∈ st.completed ∨ (rid ∈ rem ∧ poll k rid = .status (some "Finished"))) ∧
    (rid ∈ (sweep poll k rem st).failed ↔
      rid ∈ st.failed ∨ (rid ∈ rem ∧ errorPoll (poll k rid))) ∧
    (rid ∈ (monitor_reports poll ids mw iv).failed → ∃ j, errorPoll (poll j rid)) ∧
    ((∀ j, transientPoll (poll j rid)) →
      rid ∉ (monitor_reports poll ids mw iv).completed ∧
        rid ∉ (monitor_reports poll ids mw iv).failed) := by
  refine ⟨pollOne_transient_eq poll k st rid,
    sweep_mem_completed poll k rem st rid,
    sweep_mem_failed poll k rem st rid, ?_,
    monitor_reports_transient_stays poll ids mw iv rid⟩
  intro h
  exact (monitor_reports_failed_sound poll ids mw iv rid h).2.2

/-- Witness for C8 at a concrete input: a `Running` status check leaves the
monitor state untouched, and the `Error`-polled report of the concrete
environment yields an explicit error poll. -/
theorem c8_transient_checks_retried_not_failed_witness :
    pollOne envErrorVsTimeout.poll 0 MonitorState.init "R2" = MonitorState.init ∧
    ∃ j, errorPoll (envErrorVsTimeout.poll j "R1") := by
  constructor
  · exact (c8_transient_checks_retried_not_failed envErrorVsTimeout.poll
      ["R1", "R2"] [] 3600 30 0 MonitorState.init "R2").1
      (Or.inr (Or.inr ⟨"Running", by decide, by decide, by decide, by decide⟩))
  · exact (c8_transient_checks_retried_not_failed envErrorVsTimeout.poll
      ["R1", "R2"] [] 3600 30 0 MonitorState.init "R1").2.2.2.1 (by decide)

end QualysAuto
